import Mathlib

/-!
Verification of the FastAPI Figma-analysis service (`FastAPI/main.py`).

The development shallowly embeds the three components of the service:

* `extract_figma_summary` — the JSON summary extractor nested inside the
  `/analysis` handler (main.py lines 81-114);
* `paginate` — the PDF line-layout loop of the handler (lines 158-171),
  together with the 90-character truncation of long lines;
* `analyze_figma` — the handler's orchestration of the credential check,
  the Figma fetch, the Gemini call and the PDF build, with the two
  outbound calls supplied as oracle values and recorded in a call trace.

JSON values are modelled by the inductive `Json`; Python dictionary
access (`dict.get`), iteration and slicing are modelled by `Except`
valued functions that raise (return `.error`) exactly where the Python
code would raise (`.get` on a non-dict, iterating a non-iterable,
slicing a dict), so that graceful-degradation claims are about the
`.ok` results of the same partial functions.
-/

/-- A JSON value as produced by `res.json()`.  Numbers are modelled as
integers: the extractor never computes with numbers, it only carries
them through, so the choice of number carrier is irrelevant to every
claim.  Objects are association lists in document order (the order
`json.loads` presents keys, which is also `dict.keys()` order). -/
inductive Json where
  | null
  | bool (b : Bool)
  | num (n : Int)
  | str (s : String)
  | arr (elems : List Json)
  | obj (fields : List (String × Json))

/-- First value stored under key `k`, as Python `dict` lookup. -/
def lookupKey : List (String × Json) → String → Option Json
  | [], _ => none
  | kv :: rest, k => if kv.1 = k then some kv.2 else lookupKey rest k

/-- Python `v.get(k, d)`: defaulting lookup on a dict, `AttributeError`
on any non-dict value. -/
def pyGetD (v : Json) (k : String) (d : Json) : Except String Json :=
  match v with
  | .obj kvs => .ok ((lookupKey kvs k).getD d)
  | _ => .error "AttributeError: get"

/-- Python `v.get(k)`: the default is `None`, i.e. JSON null. -/
def pyGetNone (v : Json) (k : String) : Except String Json :=
  pyGetD v k .null

/-- Python `for x in v`: lists yield their elements, dicts their keys,
strings their characters; anything else raises `TypeError`. -/
def pyIter : Json → Except String (List Json)
  | .arr xs => .ok xs
  | .obj kvs => .ok (kvs.map fun kv => .str kv.1)
  | .str s => .ok (s.data.map fun c => .str (String.singleton c))
  | _ => .error "TypeError: not iterable"

/-- Python `v[:n]` followed by iteration, as in
`for child in page.get("children", [])[:20]`: lists and strings can be
sliced, a dict (or scalar) raises `TypeError` at the slice. -/
def pySliceIter (v : Json) (n : Nat) : Except String (List Json) :=
  match v with
  | .arr xs => .ok (xs.take n)
  | .str s => .ok ((s.data.take n).map fun c => .str (String.singleton c))
  | _ => .error "TypeError: unsliceable"

/-- Python truthiness of a JSON value, used by
`... if data.get("styles") else []`. -/
def Json.truthy : Json → Bool
  | .null => false
  | .bool b => b
  | .num n => n != 0
  | .str s => s != ""
  | .arr l => !l.isEmpty
  | .obj l => !l.isEmpty

/-- One `frame_info` dict: `child.get("name")`, `child.get("type")`,
`child.get("backgroundColor")` (main.py lines 101-105).  A missing key
gives Python `None`, i.e. JSON null. -/
structure FrameInfo where
  name : Json
  type : Json
  background : Json


/-- One `page_info` dict (main.py lines 92-109). -/
structure PageInfo where
  name : Json
  type : Json
  frames : List FrameInfo


/-- The `summary["styles"]` dict (main.py lines 112-115). -/
structure StylesInfo where
  colors : List String
  text_styles : List String


/-- The `summary` dict returned by `extract_figma_summary`. -/
structure Summary where
  name : Json
  version : Json
  pages : List PageInfo
  styles : StylesInfo


/-- `frame_info = {"name": child.get("name"), "type": child.get("type"),
"background": child.get("backgroundColor")}`. -/
def extractFrame (child : Json) : Except String FrameInfo := do
  let name ← pyGetNone child "name"
  let ty ← pyGetNone child "type"
  let background ← pyGetNone child "backgroundColor"
  pure ⟨name, ty, background⟩

/-- The `for child in ...` loop body, appending each `frame_info` in
order. -/
def extractFrames : List Json → Except String (List FrameInfo)
  | [] => pure []
  | c :: rest => do
    let fi ← extractFrame c
    let rest' ← extractFrames rest
    pure (fi :: rest')

/-- One iteration of `for page in doc.get("children", [])`: build
`page_info`, then loop over `page.get("children", [])[:20]`. -/
def extractPage (page : Json) : Except String PageInfo := do
  let name ← pyGetNone page "name"
  let ty ← pyGetNone page "type"
  let childrenJ ← pyGetD page "children" (.arr [])
  let children ← pySliceIter childrenJ 20
  let frames ← extractFrames children
  pure ⟨name, ty, frames⟩

/-- The `for page in ...` loop, appending each `page_info` in order. -/
def extractPages : List Json → Except String (List PageInfo)
  | [] => pure []
  | p :: rest => do
    let pi ← extractPage p
    let rest' ← extractPages rest
    pure (pi :: rest')

/-- `list(data.get(key, {}).keys())[:10] if data.get(key) else []`:
evaluate the truthiness condition first, then take the first ten keys
(raising if the truthy value is not a dict), exactly as the two style
lines of main.py do for `"styles"` and `"componentSets"`. -/
def extractStyleKeys (data : Json) (key : String) : Except String (List String) := do
  let cond ← pyGetNone data key
  if cond.truthy then
    let v ← pyGetD data key (.obj [])
    match v with
    | .obj kvs => pure ((kvs.map Prod.fst).take 10)
    | _ => .error "AttributeError: keys"
  else
    pure []

/-- `extract_figma_summary(data)` (main.py lines 81-116), in source
order: top-level name and version with `"Unknown"` defaults, then the
two-level page/frame walk under `"document"`, then the style key
lists. -/
def extract_figma_summary (data : Json) : Except String Summary := do
  let name ← pyGetD data "name" (.str "Unknown")
  let version ← pyGetD data "version" (.str "Unknown")
  let doc ← pyGetD data "document" (.obj [])
  let childrenJ ← pyGetD doc "children" (.arr [])
  let children ← pyIter childrenJ
  let pages ← extractPages children
  let colors ← extractStyleKeys data "styles"
  let text_styles ← extractStyleKeys data "componentSets"
  pure ⟨name, version, pages, ⟨colors, text_styles⟩⟩

/-! ## Depth-two projection (claim C5)

The extractor is supposed to read nothing below the second level of the
`document` tree.  `mapFrames f` applies `f` to every second-level child
(frame) of the document — and only there — and `pruneFrame` discards
everything a frame holds except its `name`, `type` and
`backgroundColor` entries, in particular its own `children` subtree.
Invariance of `extract_figma_summary` under `mapFrames pruneFrame`
states exactly that nodes deeper than the second level (and any frame
field other than the three recorded ones) contribute nothing. -/

/-- Apply `f` to the values stored at key `tk`, leaving other entries
alone. -/
def mapValueAt (tk : String) (f : Json → Json) : List (String × Json) → List (String × Json)
  | [] => []
  | kv :: rest => (if kv.1 = tk then (kv.1, f kv.2) else kv) :: mapValueAt tk f rest

/-- The three frame keys the extractor reads. -/
def frameKeyKeep (k : String) : Bool :=
  k == "name" || k == "type" || k == "backgroundColor"

/-- Discard everything in a frame except `name`, `type`,
`backgroundColor` — in particular its `children`, i.e. every node
deeper than the second level. -/
def pruneFrame : Json → Json
  | .obj kvs => .obj (kvs.filter fun kv => frameKeyKeep kv.1)
  | v => v

/-- Apply `f` to each element of a page's `children` list. -/
def mapFrameChildren (f : Json → Json) : Json → Json
  | .arr cs => .arr (cs.map f)
  | v => v

/-- Apply `f` to every frame of one page. -/
def mapPage (f : Json → Json) : Json → Json
  | .obj kvs => .obj (mapValueAt "children" (mapFrameChildren f) kvs)
  | v => v

/-- Apply `f` to every frame of every page in a `children` list. -/
def mapPages (f : Json → Json) : Json → Json
  | .arr ps => .arr (ps.map (mapPage f))
  | v => v

/-- Apply `f` to every frame below a `document` node. -/
def mapDoc (f : Json → Json) : Json → Json
  | .obj kvs => .obj (mapValueAt "children" (mapPages f) kvs)
  | v => v

/-- Apply `f` to every second-level child (frame) of a Design
Document. -/
def mapFrames (f : Json → Json) : Json → Json
  | .obj kvs => .obj (mapValueAt "document" (mapDoc f) kvs)
  | v => v

/-! ## Report paginator (main.py lines 156-171) -/

/-- `if len(line) > 90: line = line[:87] + "..."` (main.py lines
167-168): a line of more than 90 characters is replaced by its first 87
characters followed by the ellipsis marker. -/
def truncLine (line : String) : String :=
  if line.length > 90 then String.mk (line.data.take 87) ++ "..." else line

/-- One `pdf.drawString(40, y_position, line)` call: the drawn text and
its vertical position. -/
structure Placement where
  text : String
  y : Int

/-- The loop state: pages already emitted by `pdf.showPage()`, the
placements of the current page, and `y_position`. -/
structure PagState where
  pages : List (List Placement)
  current : List Placement
  y : Int

/-- The `for line in analysis_text.split("\n")` loop (main.py lines
160-171): if `y_position < 50` start a new page at `y_position = 800`;
truncate the line, draw it at the current offset, decrement the offset
by 15. -/
def placeLines : List String → PagState → PagState
  | [], st => st
  | line :: rest, st =>
    let st1 := if st.y < 50 then ⟨st.pages ++ [st.current], [], 800⟩ else st
    placeLines rest ⟨st1.pages, st1.current ++ [⟨truncLine line, st1.y⟩], st1.y - 15⟩

/-- The whole layout pass: `y_position = 770` before the loop (main.py
line 158), and `pdf.save()` emits the page in progress at the end. -/
def paginate (lines : List String) : List (List Placement) :=
  let st := placeLines lines ⟨[], [], 770⟩
  st.pages ++ [st.current]

/-- The drawn texts of a page sequence, in page-then-position order. -/
def flatTexts (pages : List (List Placement)) : List String :=
  (pages.map fun pg => pg.map Placement.text).flatten

/-- Vertical position of the first placement of a page, if any. -/
def headY (pg : List Placement) : Option Int :=
  pg.head?.map Placement.y

/-- All texts a paginator state accounts for: emitted pages followed by
the page in progress. -/
def stTexts (st : PagState) : List String :=
  flatTexts (st.pages ++ [st.current])

/-- Invariant of the layout loop, started from `y_position = 770` with
nothing placed: either no page has been emitted yet and the page in
progress starts at 770, or the first emitted page starts at 770 and
every later page — emitted or in progress — starts at the reset
offset 800. -/
def PagInv (st : PagState) : Prop :=
  (st.pages = [] ∧ headY st.current = some 770) ∨
  (∃ p0 rest, st.pages = p0 :: rest ∧ headY p0 = some 770 ∧
    (∀ p ∈ rest, headY p = some 800) ∧ headY st.current = some 800)

/-- A concrete 91-character line, one character over the width
threshold. -/
def longLine : String :=
  String.mk (List.replicate 91 'a')

/-! ## The `/analysis` handler (main.py lines 65-183) -/

/-- The three environment values read at startup.  `os.getenv` yields
`None` (here `none`) when a variable is unset. -/
structure Env where
  GEMINI_API_KEY : Option String
  FIGMA_TOKEN : Option String
  FILE_KEY : Option String

/-- Python truthiness of an optional environment string: `None` and the
empty string are falsy. -/
def envTruthy : Option String → Bool
  | none => false
  | some s => s != ""

/-- The response of `requests.get` on the Figma file URL: a status code
and the JSON body. -/
structure FigmaResponse where
  status_code : Nat
  body : Json

/-- The outbound calls the handler can make, in order of issue. -/
inductive Step where
  | fetchCall
  | geminiCall
deriving DecidableEq

/-- What the handler returns: an `{"error": ...}` JSON payload, the PDF
response (modelled by its per-page text placements; the constant title
string drawn at `(40, 800)` before the loop is not part of the line
layout), or an uncaught Python exception. -/
inductive HandlerResult where
  | errorJson (msg : String)
  | pdfResponse (pages : List (List Placement))
  | raised (msg : String)

/-- `analysis_text = ""` then `for chunk in response: if chunk.text:
analysis_text += chunk.text` — concatenate the streamed chunks in
arrival order, skipping falsy (empty) chunks. -/
def concatChunks (chunks : List String) : String :=
  chunks.foldl (fun acc c => if c != "" then acc ++ c else acc) ""

/-- `analyze_figma` (the `/analysis` handler, main.py lines 65-183) with
the two outbound services supplied as oracles: `fetchRes` is what
`requests.get` would return and `geminiChunks` the streamed Gemini
chunks (or the exception the client raises).  Returns the handler
result together with the trace of outbound calls actually issued. -/
def analyze_figma (env : Env) (fetchRes : FigmaResponse)
    (geminiChunks : Except String (List String)) : HandlerResult × List Step :=
  if !envTruthy env.FIGMA_TOKEN || !envTruthy env.FILE_KEY
      || !envTruthy env.GEMINI_API_KEY then
    (.errorJson "Missing env vars", [])
  else if fetchRes.status_code != 200 then
    (.errorJson "failed to fetch figma", [.fetchCall])
  else
    match extract_figma_summary fetchRes.body with
    | .error e => (.raised e, [.fetchCall])
    | .ok _figma_summary =>
      match geminiChunks with
      | .error e => (.errorJson ("Gemini API error: " ++ e), [.fetchCall, .geminiCall])
      | .ok chunks =>
        let analysis_text := concatChunks chunks
        (.pdfResponse (paginate (analysis_text.splitOn "\n")),
          [.fetchCall, .geminiCall])

/-! ## Basic lemmas about the `Except` plumbing -/

theorem pure_eq_ok {ε α : Type} (a : α) : (pure a : Except ε α) = .ok a := rfl

theorem bind_ok_iff {ε α β : Type} {x : Except ε α} {f : α → Except ε β} {b : β} :
    x >>= f = .ok b ↔ ∃ a, x = .ok a ∧ f a = .ok b := by
  cases x with
  | error e =>
    constructor
    · intro h; exact absurd h (by simp [Bind.bind, Except.bind])
    · rintro ⟨a, ha, -⟩; cases ha
  | ok a =>
    constructor
    · intro h; exact ⟨a, rfl, h⟩
    · rintro ⟨a', ha, hf⟩; cases ha; exact hf

theorem pySliceIter_length {v : Json} {n : Nat} {l : List Json}
    (h : pySliceIter v n = .ok l) : l.length ≤ n := by
  cases v <;> simp [pySliceIter] at h <;> subst h <;>
    simp [List.length_take_le]

theorem extractFrames_length : ∀ {l : List Json} {fs : List FrameInfo},
    extractFrames l = .ok fs → fs.length = l.length := by
  intro l
  induction l with
  | nil =>
    intro fs h
    simp [extractFrames, pure_eq_ok] at h
    simp [← h]
  | cons c rest ih =>
    intro fs h
    simp only [extractFrames, bind_ok_iff, pure_eq_ok, Except.ok.injEq] at h
    obtain ⟨fi, -, rest', hrest, hfs⟩ := h
    subst hfs
    simp [ih hrest]

theorem extractPage_frames_le {p : Json} {pi : PageInfo}
    (h : extractPage p = .ok pi) : pi.frames.length ≤ 20 := by
  simp only [extractPage, bind_ok_iff, pure_eq_ok, Except.ok.injEq] at h
  obtain ⟨n, -, t, -, cJ, -, ch, hch, fs, hfs, hpi⟩ := h
  subst hpi
  simpa [extractFrames_length hfs] using pySliceIter_length hch

theorem extractPages_frames_le : ∀ {l : List Json} {ps : List PageInfo},
    extractPages l = .ok ps → ∀ pi ∈ ps, pi.frames.length ≤ 20 := by
  intro l
  induction l with
  | nil =>
    intro ps h
    simp [extractPages, pure_eq_ok] at h
    subst h
    intro x hx
    cases hx
  | cons p rest ih =>
    intro ps h
    simp only [extractPages, bind_ok_iff, pure_eq_ok, Except.ok.injEq] at h
    obtain ⟨pi, hpi, rest', hrest, hps⟩ := h
    subst hps
    intro x hx
    rcases List.mem_cons.mp hx with hx | hx
    · subst hx; exact extractPage_frames_le hpi
    · exact ih hrest x hx

theorem extractStyleKeys_length {data : Json} {k : String} {ks : List String}
    (h : extractStyleKeys data k = .ok ks) : ks.length ≤ 10 := by
  simp only [extractStyleKeys, bind_ok_iff] at h
  obtain ⟨cond, -, h⟩ := h
  by_cases hc : cond.truthy
  · simp only [hc, if_true, bind_ok_iff] at h
    obtain ⟨v, -, h⟩ := h
    cases v <;> simp [pure_eq_ok] at h
    simp [← h, List.length_take_le]
  · simp [hc, pure_eq_ok] at h
    subst h
    simp

/-- Claim C1: for every input JSON value on which the extractor runs to
completion, the resulting `Summary` has at most 20 frames in every
page's frame list, at most 10 keys in `styles.colors` and at most 10
keys in `styles.text_styles`, however large the input is. -/
theorem C1_summary_bounds (data : Json) (s : Summary)
    (h : extract_figma_summary data = .ok s) :
    (∀ pi ∈ s.pages, pi.frames.length ≤ 20) ∧
      s.styles.colors.length ≤ 10 ∧ s.styles.text_styles.length ≤ 10 := by
  simp only [extract_figma_summary, bind_ok_iff, pure_eq_ok, Except.ok.injEq] at h
  obtain ⟨n, -, v, -, doc, -, cJ, -, ch, -, pages, hpages, colors, hcolors,
    ts, hts, hs⟩ := h
  subst hs
  exact ⟨extractPages_frames_le hpages, extractStyleKeys_length hcolors,
    extractStyleKeys_length hts⟩

/-- Witness for C1 at a concrete two-page document with 25 frames on
one page. -/
theorem C1_summary_bounds_witness :
    (∀ pi ∈ (Summary.mk (.str "Unknown") (.str "Unknown")
        [⟨.null, .null, []⟩] ⟨[], []⟩).pages, pi.frames.length ≤ 20) ∧
      (StylesInfo.mk [] []).colors.length ≤ 10 ∧
      (StylesInfo.mk [] []).text_styles.length ≤ 10 :=
  C1_summary_bounds
    (.obj [("document", .obj [("children", .arr [.obj []])])])
    (Summary.mk (.str "Unknown") (.str "Unknown") [⟨.null, .null, []⟩] ⟨[], []⟩)
    (by rfl)

example : extract_figma_summary (.obj [("name", .str "F"),
    ("document", .obj [("children", .arr [.obj [("name", .str "P"),
      ("children", .arr [.obj [("name", .str "Fr")]])]])])]) =
    .ok ⟨.str "F", .str "Unknown",
      [⟨.str "P", .null, [⟨.str "Fr", .null, .null⟩]⟩], ⟨[], []⟩⟩ := by rfl

theorem ok_bind {ε α β : Type} (a : α) (f : α → Except ε β) :
    (Except.ok a >>= f) = f a := rfl

theorem error_bind {ε α β : Type} (e : ε) (f : α → Except ε β) :
    (Except.error e >>= f : Except ε β) = .error e := rfl

/-- Claim C6: a Design Document (a JSON dict) missing any of the keys
`name`, `version`, `document`, `styles`, `componentSets` gets the
corresponding default — `"Unknown"` for name and version, no pages for
a missing `document`, empty style key lists — and with all five keys
absent the extractor returns the all-defaults summary without
raising. -/
theorem C6_missing_keys_defaults (kvs : List (String × Json)) :
    (lookupKey kvs "name" = none → ∀ s, extract_figma_summary (.obj kvs) = .ok s →
      s.name = .str "Unknown") ∧
    (lookupKey kvs "version" = none → ∀ s, extract_figma_summary (.obj kvs) = .ok s →
      s.version = .str "Unknown") ∧
    (lookupKey kvs "document" = none → ∀ s, extract_figma_summary (.obj kvs) = .ok s →
      s.pages = []) ∧
    (lookupKey kvs "styles" = none → ∀ s, extract_figma_summary (.obj kvs) = .ok s →
      s.styles.colors = []) ∧
    (lookupKey kvs "componentSets" = none → ∀ s, extract_figma_summary (.obj kvs) = .ok s →
      s.styles.text_styles = []) ∧
    (lookupKey kvs "name" = none → lookupKey kvs "version" = none →
      lookupKey kvs "document" = none → lookupKey kvs "styles" = none →
      lookupKey kvs "componentSets" = none →
      extract_figma_summary (.obj kvs) =
        .ok ⟨.str "Unknown", .str "Unknown", [], ⟨[], []⟩⟩) := by
  refine ⟨?_, ?_, ?_, ?_, ?_, ?_⟩
  · intro hmiss s h
    simp only [extract_figma_summary, bind_ok_iff, pure_eq_ok, Except.ok.injEq] at h
    obtain ⟨n, hn, v, -, doc, -, cJ, -, ch, -, pages, -, colors, -, ts, -, hs⟩ := h
    subst hs
    simp [pyGetD, hmiss] at hn
    simp [← hn]
  · intro hmiss s h
    simp only [extract_figma_summary, bind_ok_iff, pure_eq_ok, Except.ok.injEq] at h
    obtain ⟨n, -, v, hv, doc, -, cJ, -, ch, -, pages, -, colors, -, ts, -, hs⟩ := h
    subst hs
    simp [pyGetD, hmiss] at hv
    simp [← hv]
  · intro hmiss s h
    simp only [extract_figma_summary, bind_ok_iff, pure_eq_ok, Except.ok.injEq] at h
    obtain ⟨n, -, v, -, doc, hdoc, cJ, hcJ, ch, hch, pages, hpages, colors, -,
      ts, -, hs⟩ := h
    subst hs
    simp [pyGetD, hmiss] at hdoc
    subst hdoc
    simp [pyGetD, lookupKey] at hcJ
    subst hcJ
    simp [pyIter] at hch
    subst hch
    simp [extractPages, pure_eq_ok] at hpages
    simp [← hpages]
  · intro hmiss s h
    simp only [extract_figma_summary, bind_ok_iff, pure_eq_ok, Except.ok.injEq] at h
    obtain ⟨n, -, v, -, doc, -, cJ, -, ch, -, pages, -, colors, hcolors, ts, -, hs⟩ := h
    subst hs
    simp [extractStyleKeys, pyGetNone, pyGetD, hmiss, Json.truthy, pure_eq_ok,
      ok_bind] at hcolors
    simp [← hcolors]
  · intro hmiss s h
    simp only [extract_figma_summary, bind_ok_iff, pure_eq_ok, Except.ok.injEq] at h
    obtain ⟨n, -, v, -, doc, -, cJ, -, ch, -, pages, -, colors, -, ts, hts, hs⟩ := h
    subst hs
    simp [extractStyleKeys, pyGetNone, pyGetD, hmiss, Json.truthy, pure_eq_ok,
      ok_bind] at hts
    simp [← hts]
  · intro h1 h2 h3 h4 h5
    simp [extract_figma_summary, pyGetD, pyGetNone, h1, h2, h3, h4, h5,
      extractStyleKeys, pyIter, extractPages, Json.truthy, lookupKey,
      ok_bind, pure_eq_ok]

/-- Witness for C6: the empty JSON dict takes every default and the
extractor succeeds. -/
theorem C6_missing_keys_defaults_witness :
    extract_figma_summary (.obj []) =
      .ok ⟨.str "Unknown", .str "Unknown", [], ⟨[], []⟩⟩ :=
  (C6_missing_keys_defaults []).2.2.2.2.2 rfl rfl rfl rfl rfl

/-- Claim C10: inside the summary the `"Unknown"` default is never
used: a page or frame dict missing `name`, `type` or `backgroundColor`
yields JSON null in the corresponding summary field. -/
theorem C10_null_defaults (kvs : List (String × Json)) :
    (lookupKey kvs "name" = none → ∀ fi, extractFrame (.obj kvs) = .ok fi →
      fi.name = .null) ∧
    (lookupKey kvs "type" = none → ∀ fi, extractFrame (.obj kvs) = .ok fi →
      fi.type = .null) ∧
    (lookupKey kvs "backgroundColor" = none → ∀ fi, extractFrame (.obj kvs) = .ok fi →
      fi.background = .null) ∧
    (lookupKey kvs "name" = none → ∀ pi, extractPage (.obj kvs) = .ok pi →
      pi.name = .null) ∧
    (lookupKey kvs "type" = none → ∀ pi, extractPage (.obj kvs) = .ok pi →
      pi.type = .null) := by
  refine ⟨?_, ?_, ?_, ?_, ?_⟩
  · intro hmiss fi h
    simp only [extractFrame, bind_ok_iff, pure_eq_ok, Except.ok.injEq] at h
    obtain ⟨n, hn, t, -, b, -, hfi⟩ := h
    subst hfi
    simp [pyGetNone, pyGetD, hmiss] at hn
    simp [← hn]
  · intro hmiss fi h
    simp only [extractFrame, bind_ok_iff, pure_eq_ok, Except.ok.injEq] at h
    obtain ⟨n, -, t, ht, b, -, hfi⟩ := h
    subst hfi
    simp [pyGetNone, pyGetD, hmiss] at ht
    simp [← ht]
  · intro hmiss fi h
    simp only [extractFrame, bind_ok_iff, pure_eq_ok, Except.ok.injEq] at h
    obtain ⟨n, -, t, -, b, hb, hfi⟩ := h
    subst hfi
    simp [pyGetNone, pyGetD, hmiss] at hb
    simp [← hb]
  · intro hmiss pi h
    simp only [extractPage, bind_ok_iff, pure_eq_ok, Except.ok.injEq] at h
    obtain ⟨n, hn, t, -, cJ, -, ch, -, fs, -, hpi⟩ := h
    subst hpi
    simp [pyGetNone, pyGetD, hmiss] at hn
    simp [← hn]
  · intro hmiss pi h
    simp only [extractPage, bind_ok_iff, pure_eq_ok, Except.ok.injEq] at h
    obtain ⟨n, -, t, ht, cJ, -, ch, -, fs, -, hpi⟩ := h
    subst hpi
    simp [pyGetNone, pyGetD, hmiss] at ht
    simp [← ht]

/-- Witness for C10: the empty frame and page dicts yield null fields. -/
theorem C10_null_defaults_witness :
    (FrameInfo.mk .null .null .null).name = Json.null ∧
      (PageInfo.mk .null .null []).type = Json.null :=
  ⟨(C10_null_defaults []).1 rfl ⟨.null, .null, .null⟩ rfl,
   (C10_null_defaults []).2.2.2.2 rfl ⟨.null, .null, []⟩ rfl⟩

/-! ## Paginator lemmas -/

theorem truncLine_of_le {line : String} (h : line.length ≤ 90) :
    truncLine line = line := by
  rw [truncLine, if_neg (by omega)]

theorem truncLine_data_of_gt {line : String} (h : 90 < line.length) :
    (truncLine line).data = line.data.take 87 ++ "...".data := by
  rw [truncLine, if_pos h]
  rfl

theorem truncLine_length_of_gt {line : String} (h : 90 < line.length) :
    (truncLine line).length = 90 := by
  have h2 : (truncLine line).length = (line.data.take 87).length + 3 := by
    rw [truncLine, if_pos h, String.length_append]
    rfl
  have h3 : line.data.length = line.length := String.length_data line
  rw [h2, List.length_take, min_eq_left (by omega)]

theorem truncLine_length_le (line : String) : (truncLine line).length ≤ 90 := by
  by_cases h : 90 < line.length
  · rw [truncLine_length_of_gt h]
  · rw [truncLine_of_le (by omega)]; omega

theorem truncLine_ends_of_gt {line : String} (h : 90 < line.length) :
    ∃ s, truncLine line = s ++ "..." :=
  ⟨String.mk (line.data.take 87), by rw [truncLine, if_pos h]⟩

theorem placeLines_texts : ∀ (ls : List String) (st : PagState),
    stTexts (placeLines ls st) = stTexts st ++ ls.map truncLine := by
  intro ls
  induction ls with
  | nil => intro st; simp [placeLines]
  | cons line rest ih =>
    intro st
    by_cases hy : st.y < 50
    · simp only [placeLines, if_pos hy]
      rw [ih]
      simp [stTexts, flatTexts, List.map_append, List.flatten_append]
    · simp only [placeLines, if_neg hy]
      rw [ih]
      simp [stTexts, flatTexts, List.map_append, List.flatten_append]

theorem flatTexts_paginate (lines : List String) :
    flatTexts (paginate lines) = lines.map truncLine := by
  have h := placeLines_texts lines ⟨[], [], 770⟩
  simpa [paginate, stTexts, flatTexts] using h

theorem headY_append {c : List Placement} {x : Placement} (h : c ≠ []) :
    headY (c ++ [x]) = headY c := by
  cases c with
  | nil => exact absurd rfl h
  | cons a t => simp [headY]

theorem headY_ne_nil {c : List Placement} {v : Int} (h : headY c = some v) :
    c ≠ [] := by
  intro hc; subst hc; simp [headY] at h

theorem placeLines_inv : ∀ (ls : List String) (st : PagState),
    PagInv st → PagInv (placeLines ls st) := by
  intro ls
  induction ls with
  | nil => intro st h; simpa [placeLines] using h
  | cons line rest ih =>
    intro st h
    simp only [placeLines]
    by_cases hy : st.y < 50
    · rw [if_pos hy]
      apply ih
      rcases h with ⟨hp, hc⟩ | ⟨p0, rest0, hp, h770, h800, hc⟩
      · right
        exact ⟨st.current, [], by rw [hp]; rfl, hc, by simp, by simp [headY]⟩
      · right
        refine ⟨p0, rest0 ++ [st.current], by rw [hp]; simp, h770, ?_,
          by simp [headY]⟩
        intro p hp'
        rcases List.mem_append.mp hp' with h' | h'
        · exact h800 p h'
        · simp at h'; subst h'; exact hc
    · rw [if_neg hy]
      apply ih
      rcases h with ⟨hp, hc⟩ | ⟨p0, rest0, hp, h770, h800, hc⟩
      · exact Or.inl ⟨hp, by rw [headY_append (headY_ne_nil hc)]; exact hc⟩
      · exact Or.inr ⟨p0, rest0, hp, h770, h800,
          by rw [headY_append (headY_ne_nil hc)]; exact hc⟩

/-! ## Claims C2, C3, C4, C9 -/

/-- Claim C2 counterexample: for a 91-character input line the placed
line is the truncated one, so concatenating the placed lines does not
reconstruct the original line sequence. -/
theorem C2_counterexample : flatTexts (paginate [longLine]) ≠ [longLine] := by
  decide

/-- Claim C2 (amended): the paginator places exactly one line per input
line, in page-then-position order the placed lines are the input lines
each passed through the 90-character truncation (so lines of at most 90
characters are reproduced exactly), and nothing is dropped, duplicated
or reordered. -/
theorem C2_lines_placed (lines : List String) :
    (flatTexts (paginate lines)).length = lines.length ∧
      flatTexts (paginate lines) = lines.map truncLine := by
  refine ⟨?_, flatTexts_paginate lines⟩
  rw [flatTexts_paginate]
  exact List.length_map lines truncLine

/-- Claim C3: the line placed for input line `i` is its truncation: for
a line longer than 90 characters it has length at most 93 and ends with
`"..."`, and a line of at most 90 characters is placed unchanged. -/
theorem C3_truncation (lines : List String) (i : Nat) (h : i < lines.length) :
    (flatTexts (paginate lines))[i]? = some (truncLine lines[i]) ∧
      (90 < lines[i].length → (truncLine lines[i]).length ≤ 93 ∧
        ∃ s, truncLine lines[i] = s ++ "...") ∧
      (lines[i].length ≤ 90 → truncLine lines[i] = lines[i]) := by
  refine ⟨?_, fun hgt => ⟨?_, truncLine_ends_of_gt hgt⟩,
    fun hle => truncLine_of_le hle⟩
  · rw [flatTexts_paginate]
    simp [List.getElem?_eq_getElem h]
  · have := truncLine_length_of_gt ‹90 < lines[i].length›
    omega

/-- Witness for C3 at the concrete 91-character line. -/
theorem C3_truncation_witness :
    (flatTexts (paginate [longLine]))[0]? = some (truncLine longLine) ∧
      (90 < longLine.length → (truncLine longLine).length ≤ 93 ∧
        ∃ s, truncLine longLine = s ++ "...") ∧
      (longLine.length ≤ 90 → truncLine longLine = longLine) :=
  C3_truncation [longLine] 0 (by decide)

/-- Claim C9: every drawn line fits the 90-character width budget, and
a line longer than 90 characters is placed as exactly its first 87
characters followed by `"..."`, total length exactly 90. -/
theorem C9_width_budget (lines : List String) :
    (∀ t ∈ flatTexts (paginate lines), t.length ≤ 90) ∧
      (∀ i, (h : i < lines.length) → 90 < lines[i].length →
        (flatTexts (paginate lines))[i]? = some (truncLine lines[i]) ∧
          (truncLine lines[i]).data = lines[i].data.take 87 ++ "...".data ∧
          (truncLine lines[i]).length = 90) := by
  constructor
  · intro t ht
    rw [flatTexts_paginate] at ht
    obtain ⟨l, -, rfl⟩ := List.mem_map.mp ht
    exact truncLine_length_le l
  · intro i h hgt
    refine ⟨?_, truncLine_data_of_gt hgt, truncLine_length_of_gt hgt⟩
    rw [flatTexts_paginate]
    simp [List.getElem?_eq_getElem h]

/-- Witness for C9 at the concrete 91-character line. -/
theorem C9_width_budget_witness :
    (truncLine longLine).length ≤ 90 ∧ (truncLine longLine).length = 90 :=
  ⟨(C9_width_budget [longLine]).1 (truncLine longLine) (by decide),
   ((C9_width_budget [longLine]).2 0 (by decide) (by decide)).2.2⟩

set_option maxRecDepth 8000 in
/-- Claim C4 counterexample: with 50 short input lines the layout
produces two pages, the first line of page one sits at `y = 770` while
the first line of page two sits at the reset offset `y = 800`, so the
first page does not start at the reset offset. -/
theorem C4_counterexample :
    (paginate (List.replicate 50 "a")).map headY = [some 770, some 800] ∧
      some (770 : Int) ≠ some (800 : Int) := by
  constructor
  · decide
  · decide

/-- Claim C4 (amended): for any nonempty input, the first analysis line
of the first page is placed at `y = 770` (the initial offset, below the
title row at 800), and on every subsequent page the first line is
placed at the reset offset `y = 800`. -/
theorem C4_page_offsets (l : String) (ls : List String) :
    ∃ p0 rest, paginate (l :: ls) = p0 :: rest ∧ headY p0 = some 770 ∧
      ∀ p ∈ rest, headY p = some 800 := by
  have hinv : PagInv (placeLines ls ⟨[], [⟨truncLine l, 770⟩], 755⟩) :=
    placeLines_inv ls _ (Or.inl ⟨rfl, rfl⟩)
  have hpag : paginate (l :: ls) =
      (placeLines ls ⟨[], [⟨truncLine l, 770⟩], 755⟩).pages ++
        [(placeLines ls ⟨[], [⟨truncLine l, 770⟩], 755⟩).current] := by
    rw [paginate, placeLines]
    norm_num
  rcases hinv with ⟨hp, hc⟩ | ⟨p0, rest0, hp, h770, h800, hc⟩
  · refine ⟨_, [], ?_, hc, by simp⟩
    rw [hpag, hp]
    rfl
  · refine ⟨p0,
      rest0 ++ [(placeLines ls ⟨[], [⟨truncLine l, 770⟩], 755⟩).current],
      ?_, h770, ?_⟩
    · rw [hpag, hp]; simp
    · intro p hp'
      rcases List.mem_append.mp hp' with h' | h'
      · exact h800 p h'
      · simp at h'; subst h'; exact hc

/-! ## Claims C7 and C8: the orchestrator -/

/-- Claim C8: with any of the three credentials absent the handler
returns the configuration-error payload and issues no outbound call at
all. -/
theorem C8_no_calls_when_unconfigured (env : Env) (fetchRes : FigmaResponse)
    (geminiChunks : Except String (List String))
    (h : env.GEMINI_API_KEY = none ∨ env.FIGMA_TOKEN = none ∨ env.FILE_KEY = none) :
    analyze_figma env fetchRes geminiChunks = (.errorJson "Missing env vars", []) := by
  rcases h with h | h | h <;> simp [analyze_figma, envTruthy, h]

/-- Witness for C8 with all credentials unset. -/
theorem C8_no_calls_when_unconfigured_witness :
    analyze_figma ⟨none, none, none⟩ ⟨200, .obj []⟩ (.ok []) =
      (.errorJson "Missing env vars", []) :=
  C8_no_calls_when_unconfigured ⟨none, none, none⟩ ⟨200, .obj []⟩ (.ok [])
    (Or.inl rfl)

/-- Claim C7: with credentials configured, a non-200 Figma response
makes the handler return `{"error": "failed to fetch figma"}`; the
call trace stops at the fetch — Gemini is never invoked — and no PDF
response is produced. -/
theorem C7_fetch_failure (env : Env) (fetchRes : FigmaResponse)
    (geminiChunks : Except String (List String))
    (h1 : envTruthy env.FIGMA_TOKEN = true) (h2 : envTruthy env.FILE_KEY = true)
    (h3 : envTruthy env.GEMINI_API_KEY = true)
    (hst : fetchRes.status_code ≠ 200) :
    analyze_figma env fetchRes geminiChunks =
      (.errorJson "failed to fetch figma", [.fetchCall]) := by
  simp [analyze_figma, h1, h2, h3, hst]

/-- Witness for C7 at a concrete 404 response. -/
theorem C7_fetch_failure_witness :
    analyze_figma ⟨some "k", some "t", some "f"⟩ ⟨404, .obj []⟩ (.ok ["chunk"]) =
      (.errorJson "failed to fetch figma", [.fetchCall]) :=
  C7_fetch_failure ⟨some "k", some "t", some "f"⟩ ⟨404, .obj []⟩ (.ok ["chunk"])
    rfl rfl rfl (by decide)

/-! ## Claim C5: depth-two invariance -/

theorem lookupKey_mapValueAt (tk : String) (f : Json → Json) :
    ∀ (kvs : List (String × Json)) (k : String),
    lookupKey (mapValueAt tk f kvs) k =
      if k = tk then (lookupKey kvs k).map f else lookupKey kvs k := by
  intro kvs k
  induction kvs with
  | nil => by_cases h : k = tk <;> simp [mapValueAt, lookupKey, h]
  | cons kv rest ih =>
    by_cases h1 : kv.1 = tk
    · by_cases h2 : kv.1 = k
      · have hk : k = tk := h2 ▸ h1
        simp [mapValueAt, lookupKey, h1, h2, hk]
      · have hk : ¬k = tk := fun h => h2 (h1.trans h.symm)
        have hk2 : ¬tk = k := fun h => hk h.symm
        simp [mapValueAt, lookupKey, h1, h2, ih, hk, hk2]
    · by_cases h2 : kv.1 = k
      · have hk : ¬k = tk := fun h => h1 (h2.symm ▸ h)
        simp [mapValueAt, lookupKey, h1, h2, hk]
      · simp [mapValueAt, lookupKey, h1, h2, ih]

theorem lookupKey_filterKeys (p : String → Bool) :
    ∀ (kvs : List (String × Json)) (k : String), p k = true →
    lookupKey (kvs.filter fun kv => p kv.1) k = lookupKey kvs k := by
  intro kvs k hk
  induction kvs with
  | nil => simp
  | cons kv rest ih =>
    by_cases h2 : kv.1 = k
    · subst h2
      simp [List.filter_cons, hk, lookupKey]
    · by_cases h1 : p kv.1
      · simp [List.filter_cons, h1, lookupKey, h2, ih]
      · simp [List.filter_cons, h1, lookupKey, h2, ih]

theorem except_bind_congr {ε α β : Type} {x : Except ε α}
    {f g : α → Except ε β} (h : ∀ a, f a = g a) : x >>= f = x >>= g := by
  cases x with
  | error e => rfl
  | ok a => exact h a

theorem extractFrame_prune (c : Json) :
    extractFrame (pruneFrame c) = extractFrame c := by
  cases c with
  | obj kvs =>
    simp [pruneFrame, extractFrame, pyGetNone, pyGetD,
      lookupKey_filterKeys frameKeyKeep kvs "name" rfl,
      lookupKey_filterKeys frameKeyKeep kvs "type" rfl,
      lookupKey_filterKeys frameKeyKeep kvs "backgroundColor" rfl]
  | null => rfl
  | bool b => rfl
  | num n => rfl
  | str s => rfl
  | arr l => rfl

theorem extractFrames_prune : ∀ l : List Json,
    extractFrames (l.map pruneFrame) = extractFrames l := by
  intro l
  induction l with
  | nil => rfl
  | cons c rest ih => simp [extractFrames, extractFrame_prune, ih]

theorem sliceChain_prune (v : Json) (K : List FrameInfo → Except String PageInfo) :
    (pySliceIter (mapFrameChildren pruneFrame v) 20 >>= fun ch =>
      extractFrames ch >>= K) =
    (pySliceIter v 20 >>= fun ch => extractFrames ch >>= K) := by
  have h2 : (pySliceIter (mapFrameChildren pruneFrame v) 20 >>= extractFrames) =
      (pySliceIter v 20 >>= extractFrames) := by
    cases v with
    | arr cs =>
      simp only [mapFrameChildren, pySliceIter, ok_bind]
      rw [← List.map_take, extractFrames_prune]
    | null => rfl
    | bool b => rfl
    | num n => rfl
    | str s => rfl
    | obj kvs => rfl
  calc (pySliceIter (mapFrameChildren pruneFrame v) 20 >>= fun ch =>
          extractFrames ch >>= K)
      = (pySliceIter (mapFrameChildren pruneFrame v) 20 >>= extractFrames) >>= K :=
        (bind_assoc _ _ _).symm
    _ = (pySliceIter v 20 >>= extractFrames) >>= K := by rw [h2]
    _ = (pySliceIter v 20 >>= fun ch => extractFrames ch >>= K) :=
        bind_assoc _ _ _

theorem extractPage_prune (p : Json) :
    extractPage (mapPage pruneFrame p) = extractPage p := by
  cases p with
  | obj kvs =>
    have hln : lookupKey (mapValueAt "children" (mapFrameChildren pruneFrame) kvs)
        "name" = lookupKey kvs "name" := by
      rw [lookupKey_mapValueAt, if_neg (by decide)]
    have hlt : lookupKey (mapValueAt "children" (mapFrameChildren pruneFrame) kvs)
        "type" = lookupKey kvs "type" := by
      rw [lookupKey_mapValueAt, if_neg (by decide)]
    have hlc : lookupKey (mapValueAt "children" (mapFrameChildren pruneFrame) kvs)
        "children" =
        (lookupKey kvs "children").map (mapFrameChildren pruneFrame) := by
      rw [lookupKey_mapValueAt, if_pos rfl]
    have hgd : ((lookupKey kvs "children").map (mapFrameChildren pruneFrame)).getD
        (.arr []) =
        mapFrameChildren pruneFrame ((lookupKey kvs "children").getD (.arr [])) := by
      cases lookupKey kvs "children" <;> simp [mapFrameChildren]
    simp only [mapPage, extractPage, pyGetNone, pyGetD, hln, hlt, hlc, hgd,
      ok_bind, map_eq_pure_bind]
    exact sliceChain_prune _ _
  | null => rfl
  | bool b => rfl
  | num n => rfl
  | str s => rfl
  | arr l => rfl

theorem extractPages_prune : ∀ l : List Json,
    extractPages (l.map (mapPage pruneFrame)) = extractPages l := by
  intro l
  induction l with
  | nil => rfl
  | cons p rest ih => simp [extractPages, extractPage_prune, ih]

theorem extractStyleKeys_mapValueAt (g : Json → Json)
    (kvs : List (String × Json)) (k tk : String) (h : ¬k = tk) :
    extractStyleKeys (.obj (mapValueAt tk g kvs)) k =
      extractStyleKeys (.obj kvs) k := by
  have hl : lookupKey (mapValueAt tk g kvs) k = lookupKey kvs k := by
    rw [lookupKey_mapValueAt, if_neg h]
  simp only [extractStyleKeys, pyGetNone, pyGetD, hl]

theorem docChain_prune (doc : Json) (K : List PageInfo → Except String Summary) :
    (pyGetD (mapDoc pruneFrame doc) "children" (.arr []) >>= fun cJ =>
      pyIter cJ >>= fun ch => extractPages ch >>= K) =
    (pyGetD doc "children" (.arr []) >>= fun cJ =>
      pyIter cJ >>= fun ch => extractPages ch >>= K) := by
  have hpi : ∀ v : Json, (pyIter (mapPages pruneFrame v) >>= extractPages) =
      (pyIter v >>= extractPages) := by
    intro v
    cases v with
    | arr ps => simp [mapPages, pyIter, ok_bind, extractPages_prune]
    | null => rfl
    | bool b => rfl
    | num n => rfl
    | str s => rfl
    | obj kvs => rfl
  cases doc with
  | obj dkvs =>
    have hlch : lookupKey (mapValueAt "children" (mapPages pruneFrame) dkvs)
        "children" = (lookupKey dkvs "children").map (mapPages pruneFrame) := by
      rw [lookupKey_mapValueAt, if_pos rfl]
    have hgd : ((lookupKey dkvs "children").map (mapPages pruneFrame)).getD
        (.arr []) = mapPages pruneFrame ((lookupKey dkvs "children").getD (.arr [])) := by
      cases lookupKey dkvs "children" <;> simp [mapPages]
    simp only [mapDoc, pyGetD, hlch, hgd, ok_bind]
    calc (pyIter (mapPages pruneFrame ((lookupKey dkvs "children").getD (.arr []))) >>=
            fun ch => extractPages ch >>= K)
        = (pyIter (mapPages pruneFrame ((lookupKey dkvs "children").getD (.arr []))) >>=
            extractPages) >>= K := (bind_assoc _ _ _).symm
      _ = (pyIter ((lookupKey dkvs "children").getD (.arr [])) >>= extractPages) >>= K := by
          rw [hpi]
      _ = (pyIter ((lookupKey dkvs "children").getD (.arr [])) >>=
            fun ch => extractPages ch >>= K) := bind_assoc _ _ _
  | null => rfl
  | bool b => rfl
  | num n => rfl
  | str s => rfl
  | arr l => rfl

/-- Claim C5: the extractor reads exactly two levels below the document
root — replacing every second-level child (frame) by its projection to
the `name`, `type` and `backgroundColor` entries, thereby deleting
every deeper node and every other frame field, leaves the result of
`extract_figma_summary` unchanged on every input. -/
theorem C5_depth_two_only (data : Json) :
    extract_figma_summary (mapFrames pruneFrame data) =
      extract_figma_summary data := by
  cases data with
  | obj kvs =>
    have hsty := extractStyleKeys_mapValueAt (mapDoc pruneFrame) kvs
      "styles" "document" (by decide)
    have hcs := extractStyleKeys_mapValueAt (mapDoc pruneFrame) kvs
      "componentSets" "document" (by decide)
    have hlname : lookupKey (mapValueAt "document" (mapDoc pruneFrame) kvs)
        "name" = lookupKey kvs "name" := by
      rw [lookupKey_mapValueAt, if_neg (by decide)]
    have hlver : lookupKey (mapValueAt "document" (mapDoc pruneFrame) kvs)
        "version" = lookupKey kvs "version" := by
      rw [lookupKey_mapValueAt, if_neg (by decide)]
    have hldoc : lookupKey (mapValueAt "document" (mapDoc pruneFrame) kvs)
        "document" = (lookupKey kvs "document").map (mapDoc pruneFrame) := by
      rw [lookupKey_mapValueAt, if_pos rfl]
    have hgn : pyGetD (.obj (mapValueAt "document" (mapDoc pruneFrame) kvs))
        "name" (.str "Unknown") =
        .ok ((lookupKey kvs "name").getD (.str "Unknown")) := by
      simp only [pyGetD, hlname]
    have hgv : pyGetD (.obj (mapValueAt "document" (mapDoc pruneFrame) kvs))
        "version" (.str "Unknown") =
        .ok ((lookupKey kvs "version").getD (.str "Unknown")) := by
      simp only [pyGetD, hlver]
    have hgdoc : pyGetD (.obj (mapValueAt "document" (mapDoc pruneFrame) kvs))
        "document" (.obj []) =
        .ok (mapDoc pruneFrame ((lookupKey kvs "document").getD (.obj []))) := by
      simp only [pyGetD, hldoc]
      cases lookupKey kvs "document" <;> simp [mapDoc, mapValueAt]
    have hgn0 : pyGetD (.obj kvs) "name" (.str "Unknown") =
        .ok ((lookupKey kvs "name").getD (.str "Unknown")) := rfl
    have hgv0 : pyGetD (.obj kvs) "version" (.str "Unknown") =
        .ok ((lookupKey kvs "version").getD (.str "Unknown")) := rfl
    have hgdoc0 : pyGetD (.obj kvs) "document" (.obj []) =
        .ok ((lookupKey kvs "document").getD (.obj [])) := rfl
    simp only [mapFrames, extract_figma_summary, hgn, hgv, hgdoc, hgn0, hgv0,
      hgdoc0, hsty, hcs, ok_bind, map_eq_pure_bind]
    exact docChain_prune _ _
  | null => rfl
  | bool b => rfl
  | num n => rfl
  | str s => rfl
  | arr l => rfl
